import Mathlib

/-!
Verification of the `itchy` filing monitor.

The development shallowly embeds the repository's Python modules:

* `resolvers/sec/sec_client.py`  — SEC EDGAR client (`SECClient`)
* `resolvers/sec/config.py`      — target forms
* `resolver.py`                  — `MarketResolver.check_for_resolution`
* `monitor.py`                   — the polling loop
* `resolvers/dart/dart_client.py` — OpenDART client (`OpenDartClient`)

Network effects are modelled by passing each call's observable response as
an explicit value (an `Except`/`Option` input), after which the code paths
are translated function by function.  Python floats are modelled exactly by
rationals (with explicit NaN/Inf constructors where the DART amount parser
needs them); Python dict-key presence is modelled with `Option` fields.
-/

/-! ## SEC facts data model (`data.sec.gov` companyfacts JSON shape) -/

/-- One element of `facts["facts"]["us-gaap"][tag]["units"]["USD"]`.
`Option` fields model presence of the corresponding JSON keys. -/
structure RawFact where
  val : Option ℚ
  endDate : Option String
  accn : Option String
  form : Option String
  filed : Option String
  fy : Option Nat
  fp : Option String
deriving DecidableEq, Repr

/-- The `units` mapping of one us-gaap tag node; `node.get("units", {}).get("USD", [])`. -/
structure TagNode where
  usd : List RawFact
deriving DecidableEq, Repr

/-- A company facts document: `entityName` plus the `facts.us-gaap` mapping,
modelled as an association list from tag to node. -/
structure CompanyFacts where
  entityName : Option String
  usGaap : List (String × TagNode)
deriving DecidableEq, Repr

/-- Python `us_gaap.get(tag, {})`: first binding wins, default empty node. -/
def lookupTag (m : List (String × TagNode)) (tag : String) : TagNode :=
  match m.find? (fun kv => kv.1 = tag) with
  | some kv => kv.2
  | none => ⟨[]⟩

/-- Sort key used at `sec_client.py:90`: `lambda x: x["end"]` (present on all
facts that survived the validity filter; default only for totality). -/
def factKey (f : RawFact) : String := f.endDate.getD ""

/-- Code-point lexicographic comparison of character lists — exactly the
`<` Python uses on `str` when `sorted` compares the ISO-date keys. -/
def charListLt : List Char → List Char → Bool
  | [], [] => false
  | [], _ :: _ => true
  | _ :: _, [] => false
  | a :: as, b :: bs =>
    if a.toNat < b.toNat then true
    else if b.toNat < a.toNat then false
    else charListLt as bs

/-- Python string `<`. -/
def strLt (a b : String) : Bool := charListLt a.data b.data

/-- Python string `<=`. -/
def strLe (a b : String) : Bool := !(strLt b a)

/-- One insertion step of a stable descending insertion sort: the incoming
(earlier-listed) element is placed before the first element whose key is not
greater than its own, so equal-key elements keep their original order —
exactly the guarantee of Python's stable `sorted(..., reverse=True)`. -/
def insertDesc (a : RawFact) : List RawFact → List RawFact
  | [] => [a]
  | b :: t =>
    if strLe (factKey b) (factKey a) then a :: b :: t else b :: insertDesc a t

/-- Stable descending sort by `factKey`, modelling
`sorted(valid_facts, key=lambda x: x["end"], reverse=True)`. -/
def sortDesc : List RawFact → List RawFact
  | [] => []
  | x :: xs => insertDesc x (sortDesc xs)

/-- The validity filter of `sec_client.py:84-87`:
`all(k in f for k in ["val", "end", "accn"])`. -/
def isValidFact (f : RawFact) : Bool :=
  f.val.isSome && f.endDate.isSome && f.accn.isSome

/-- The metric dict returned by `SECClient.get_latest_metric`. -/
structure SecMetric where
  tag : String
  value : ℚ
  endDate : String
  currency : String
  accession : String
  form : String
  filed : String
  fiscal_year : Option Nat
  fiscal_period : String
deriving DecidableEq, Repr

/-- Build the result dict of `sec_client.py:91-101` from the selected fact. -/
def mkSecMetric (tag : String) (latest : RawFact) : SecMetric :=
  { tag := tag
    value := latest.val.getD 0
    endDate := latest.endDate.getD ""
    currency := "usd"
    accession := latest.accn.getD ""
    form := latest.form.getD ""
    filed := latest.filed.getD ""
    fiscal_year := latest.fy
    fiscal_period := latest.fp.getD "" }

/-- The loop body of `SECClient.get_latest_metric` for a single tag
(`sec_client.py:78-101`): fetch the USD facts, keep those with the required
keys, sort descending by end date, return the head. -/
def tagMetric (facts : CompanyFacts) (tag : String) : Option SecMetric :=
  if ((lookupTag facts.usGaap tag).usd).isEmpty then none
  else if (((lookupTag facts.usGaap tag).usd).filter isValidFact).isEmpty then none
  else (sortDesc (((lookupTag facts.usGaap tag).usd).filter isValidFact)).head?.map
    (mkSecMetric tag)

/-- The tag loop of `SECClient.get_latest_metric` (`sec_client.py:77-103`). -/
def tagLoop (facts : CompanyFacts) : List String → Option SecMetric
  | [] => none
  | t :: ts =>
    match tagMetric facts t with
    | some m => some m
    | none => tagLoop facts ts

/-- Embeds `SECClient.get_latest_metric` (`sec_client.py:62-103`).  A `none`
document models both a falsy `facts` argument and a missing `"facts"` key. -/
def secGetLatestMetric (facts : Option CompanyFacts) (tags : List String) :
    Option SecMetric :=
  match facts with
  | none => none
  | some f => tagLoop f tags

/-! ## SEC submissions and `get_recent_filings` -/

/-- A transport-layer failure (`requests.RequestException`). -/
structure TransportError where
  msg : String
deriving DecidableEq, Repr

/-- The `filings.recent` object of a submissions document: parallel arrays
of form type, accession number and filing date. -/
structure RecentFilings where
  form : List String
  accessionNumber : List String
  filingDate : List String
deriving DecidableEq, Repr

/-- A submissions document; `recent = none` models a missing/empty
`filings.recent` object (falsy in Python). -/
structure Submissions where
  recent : Option RecentFilings
deriving DecidableEq, Repr

/-- One entry of the list built by `SECClient.get_recent_filings`. -/
structure FilingSummary where
  form : String
  accession : String
  filingDate : String
deriving DecidableEq, Repr

/-- Embeds `SECClient.get_submissions` (`sec_client.py:32-45`): the HTTP outcome is
the explicit argument; a `requests.RequestException` is caught, printed and
mapped to `None`. -/
def getSubmissions (resp : Except TransportError Submissions) :
    Option Submissions :=
  match resp with
  | Except.ok s => some s
  | Except.error _ => none

/-- Zip the three parallel arrays (Python `zip` truncates to the shortest). -/
def zipRecent (r : RecentFilings) : List ((String × String) × String) :=
  (r.form.zip r.accessionNumber).zip r.filingDate

/-- Embeds `SECClient.get_recent_filings` (`sec_client.py:105-135`). -/
def secGetRecentFilings (resp : Except TransportError Submissions)
    (forms : List String) : List FilingSummary :=
  match getSubmissions resp with
  | none => []
  | some submissions =>
    match submissions.recent with
    | none => []
    | some recent =>
      (zipRecent recent).filterMap fun fad =>
        if fad.1.1 ∈ forms then
          some ⟨fad.1.1, fad.1.2, fad.2⟩
        else none

/-! ## `MarketResolver.check_for_resolution` (`resolver.py`) -/

/-- The constant `TARGET_FORMS` from `resolvers/sec/config.py`. -/
def TARGET_FORMS : List String := ["10-Q", "10-K"]

/-- Configuration held by a `MarketResolver` instance. -/
structure ResolverConfig where
  cik : String
  tags : List String
  estimate : ℚ
deriving DecidableEq, Repr

/-- The observable upstream responses consumed by one
`check_for_resolution` invocation: the submissions fetch outcome and the
company-facts fetch outcome (a falsy/missing facts document is `none`). -/
structure PollEnv where
  submissions : Except TransportError Submissions
  facts : Option CompanyFacts

/-- The outcome computation of `resolver.py:61`:
`"YES" if actual_value > self.estimate else "NO"`. -/
def outcomeOf (actualValue estimate : ℚ) : String :=
  if actualValue > estimate then "YES" else "NO"

/-- The resolution dict built at `resolver.py:63-83` (the wall-clock
`resolved_at` field and the cosmetic formatted strings are omitted:
they carry no decision content). -/
structure Resolution where
  cik : String
  company : String
  form : String
  accession : String
  filingDate : String
  tag : String
  value : ℚ
  periodEnd : String
  fiscal_year : Option Nat
  fiscal_period : String
  estimate : ℚ
  outcome : String
deriving DecidableEq, Repr

/-- Embeds `MarketResolver.check_for_resolution` (`resolver.py:24-88`), with the
engine state `last_checked_accession : Option String` passed explicitly.
Returns the state after the call and the optional resolution dict. -/
def checkForResolution (cfg : ResolverConfig) (st : Option String)
    (env : PollEnv) : Option String × Option Resolution :=
  match secGetRecentFilings env.submissions TARGET_FORMS with
  | [] => (st, none)
  | latestFiling :: _ =>
    if some latestFiling.accession = st then (st, none)
    else
      match env.facts with
      | none => (st, none)
      | some facts =>
        match secGetLatestMetric (some facts) cfg.tags with
        | none => (st, none)
        | some metricData =>
          (some latestFiling.accession, some
            { cik := cfg.cik
              company := facts.entityName.getD "Unknown"
              form := latestFiling.form
              accession := latestFiling.accession
              filingDate := latestFiling.filingDate
              tag := metricData.tag
              value := metricData.value
              periodEnd := metricData.endDate
              fiscal_year := metricData.fiscal_year
              fiscal_period := metricData.fiscal_period
              estimate := cfg.estimate
              outcome := outcomeOf metricData.value cfg.estimate })

/-- Run a sequence of polls from a starting state, collecting every
resolution record that the engine emits. -/
def runTrace (cfg : ResolverConfig) (st : Option String) :
    List PollEnv → List Resolution
  | [] => []
  | env :: envs =>
    (checkForResolution cfg st env).2.toList ++
      runTrace cfg (checkForResolution cfg st env).1 envs

/-- The accession id of the newest filing an environment reports (after the
form filter), i.e. the id the dedup gate at `resolver.py:41` examines. -/
def newestAccession (env : PollEnv) : Option String :=
  (secGetRecentFilings env.submissions TARGET_FORMS).head?.map
    (fun f => f.accession)

/-! ## The monitor poll loop (`monitor.py:91-110`) -/

/-- What one call of `resolver.check_for_resolution()` from inside the
`while True` body looks like to the loop: a resolution, nothing, or a
raised exception. -/
inductive CycleResult where
  | resolved (r : Resolution)
  | noResolution
  | failure (msg : String)
deriving DecidableEq, Repr

/-- The control decision the loop body takes after one cycle: whether the
process terminates, and how long it sleeps before the next cycle.  Both the
success path (`monitor.py:96-105`) and the `except Exception` path
(`monitor.py:107-110`) continue after sleeping the poll interval. -/
def loopBody (interval : Nat) (c : CycleResult) : Bool × Nat :=
  match c with
  | CycleResult.resolved _ => (false, interval)
  | CycleResult.noResolution => (false, interval)
  | CycleResult.failure _ => (false, interval)

/-- Run the `while True` loop for `fuel` ticks against a stream of cycle
outcomes, counting completed cycles; a `(true, _)` decision from the body
would stop the count early. -/
def runLoop (interval : Nat) : Nat → (Nat → CycleResult) → Nat
  | 0, _ => 0
  | fuel + 1, cycles =>
    match loopBody interval (cycles 0) with
    | (true, _) => 0
    | (false, _) => runLoop interval fuel (fun i => cycles (i + 1)) + 1

/-! ## String helpers shared by the DART embedding

Python `str` operations are modelled on the character list underlying a
Lean `String`, so that concrete evaluations reduce cleanly. -/

/-- Does the second list start with the first? -/
def leadMatch : List Char → List Char → Bool
  | [], _ => true
  | _ :: _, [] => false
  | a :: as, b :: bs => a = b && leadMatch as bs

/-- Does the needle occur contiguously in the haystack? -/
def containsSeq (needle : List Char) : List Char → Bool
  | [] => needle.isEmpty
  | c :: t => leadMatch needle (c :: t) || containsSeq needle t

/-- Python `needle in haystack` for strings. -/
def strContains (haystack needle : String) : Bool :=
  containsSeq needle.data haystack.data

/-- Python `str.strip()`. -/
def pyStrip (s : String) : String :=
  ⟨((s.data.dropWhile Char.isWhitespace).reverse.dropWhile
      Char.isWhitespace).reverse⟩

/-- Python `str.lower()` (the keywords involved are ASCII or caseless). -/
def pyLower (s : String) : String := ⟨s.data.map Char.toLower⟩

/-- Python `str.upper()`. -/
def pyUpper (s : String) : String := ⟨s.data.map Char.toUpper⟩

/-- Python `s.replace(c, "")` for a single-character needle. -/
def removeChar (c : Char) (s : String) : String :=
  ⟨s.data.filter (fun d => d ≠ c)⟩

/-- Python `str(value)[:n]`. -/
def takeStr (n : Nat) (s : String) : String := ⟨s.data.take n⟩

/-- Python truthy `or` on optional strings (`a or b`). -/
def pyOrStr (a b : Option String) : Option String :=
  match a with
  | some s => if s = "" then b else some s
  | none => b

/-! ## Python float parsing (`float(text)`) -/

/-- The value space of a Python float, with the magnitude kept exact as a
rational (the repository never relies on binary rounding). -/
inductive PyFloat where
  | finite (q : ℚ)
  | nan
  | inf (neg : Bool)
deriving DecidableEq, Repr

/-- Accumulate a digit string as a natural number. -/
def digitsToNat (ds : List Char) : Nat :=
  ds.foldl (fun n c => 10 * n + (c.toNat - '0'.toNat)) 0

/-- Parse the signed digit string after an `e`/`E` exponent marker; the
whole remainder must be consumed. -/
def parseExpTail (cs : List Char) : Option Int :=
  let signSplit : Bool × List Char :=
    match cs with
    | '+' :: r => (false, r)
    | '-' :: r => (true, r)
    | r => (false, r)
  let ds := signSplit.2.takeWhile Char.isDigit
  let rest := signSplit.2.dropWhile Char.isDigit
  if ds.isEmpty || !rest.isEmpty then none
  else some (if signSplit.1 then -(digitsToNat ds : Int) else (digitsToNat ds : Int))

/-- Parse an optional exponent suffix. -/
def parseExpPart : List Char → Option Int
  | [] => some 0
  | 'e' :: r => parseExpTail r
  | 'E' :: r => parseExpTail r
  | _ => none

/-- The exact rational `(ip.fp) × 10^e` of a decimal literal with integer
digits `ip`, fractional digits `fp` and exponent `e`, built with a single
`mkRat` so that concrete inputs evaluate by kernel reduction. -/
def decimalValue (ip fp : List Char) (e : Int) : ℚ :=
  let baseNum : Nat := digitsToNat ip * 10 ^ fp.length + digitsToNat fp
  let num : Int := if 0 ≤ e then (baseNum * 10 ^ e.toNat : Nat) else (baseNum : Nat)
  let den : Nat := if 0 ≤ e then 10 ^ fp.length else 10 ^ fp.length * 10 ^ (-e).toNat
  mkRat num den

/-- Parse an unsigned decimal literal `digits[.digits][e[±]digits]`,
requiring the whole input to be consumed. -/
def parseDecimalChars (cs : List Char) : Option ℚ :=
  let ip := cs.takeWhile Char.isDigit
  let rest := cs.dropWhile Char.isDigit
  match rest with
  | '.' :: rest2 =>
    let fp := rest2.takeWhile Char.isDigit
    let rest3 := rest2.dropWhile Char.isDigit
    if ip.isEmpty && fp.isEmpty then none
    else
      match parseExpPart rest3 with
      | none => none
      | some e => some (decimalValue ip fp e)
  | _ =>
    if ip.isEmpty then none
    else
      match parseExpPart rest with
      | none => none
      | some e => some (decimalValue ip [] e)

/-- Python's `float(str)` constructor: strip, optional sign, the words
`inf`/`infinity`/`nan` (case-insensitive), otherwise a decimal literal;
anything else raises `ValueError`, modelled as `none`. -/
def pyFloatOfString (s : String) : Option PyFloat :=
  let cs := (pyStrip s).data
  let signSplit : Bool × List Char :=
    match cs with
    | '+' :: r => (false, r)
    | '-' :: r => (true, r)
    | r => (false, r)
  let lower := signSplit.2.map Char.toLower
  if lower = "inf".data || lower = "infinity".data then
    some (PyFloat.inf signSplit.1)
  else if lower = "nan".data then some PyFloat.nan
  else
    match parseDecimalChars signSplit.2 with
    | none => none
    | some q => some (PyFloat.finite (if signSplit.1 then -q else q))

/-! ## OpenDART client (`resolvers/dart/dart_client.py`) -/

/-- A cell of a finstate row as Python sees it: a numeric value or a
string; a missing key or a `None` value is the surrounding `Option`. -/
inductive CellVal where
  | num (x : PyFloat)
  | str (s : String)
deriving DecidableEq, Repr

/-- Embeds `OpenDartClient._parse_amount` (`dart_client.py:687-699`): `None` stays
`None`; ints/floats pass through `float(...)`; strings are stripped, the
placeholders `""`, `"-"`, `"NaN"`, `"nan"` map to `None`, thousands
separators are removed, and an unparseable remainder maps to `None`. -/
def parseAmount : Option CellVal → Option PyFloat
  | none => none
  | some (CellVal.num x) => some x
  | some (CellVal.str s) =>
    let text := pyStrip s
    if text = "" || text = "-" || text = "NaN" || text = "nan" then none
    else pyFloatOfString (removeChar ',' text)

/-- The client's domain error `OpenDartError`. -/
structure OpenDartError where
  msg : String
deriving DecidableEq, Repr

/-- The constant `REPORT_CODE_LABELS` from `resolvers/dart/config.py`. -/
def REPORT_CODE_LABELS : List (String × String) :=
  [("11011", "Q1 Report"), ("11012", "Semiannual Report"),
   ("11013", "Q3 Report"), ("11014", "Annual Report")]

/-- The constant `PERIOD_FISCAL_LABEL` from `dart_client.py:44-54`. -/
def PERIOD_FISCAL_LABEL : List (String × String) :=
  [("annual", "FY"), ("business", "FY"), ("q4", "FY"), ("half", "HY"),
   ("q2", "HY"), ("q1", "Q1"), ("first", "Q1"), ("q3", "Q3"), ("third", "Q3")]

/-- The constant `PERIOD_FALLBACK_ORDER` from `dart_client.py:56`. -/
def PERIOD_FALLBACK_ORDER : List String := ["half", "annual", "q3", "q1"]

/-- The period-to-`reprt_code` mapping of `_resolve_report_code`
(`dart_client.py:666-685`). -/
def reportCodeMapping : List (String × String) :=
  [("annual", "11014"), ("business", "11014"), ("q4", "11014"),
   ("q1", "11011"), ("first", "11011"), ("half", "11012"),
   ("semiannual", "11012"), ("q2", "11012"), ("q3", "11013"),
   ("third", "11013")]

/-- Embeds `OpenDartClient._resolve_report_code`: an empty period defaults to
`annual` (`period or "annual"`), unknown periods raise. -/
def resolveReportCode (period : String) : Except OpenDartError String :=
  let periodKey := pyLower (if period = "" then "annual" else period)
  match reportCodeMapping.find? (fun kv => kv.1 = periodKey) with
  | some kv => Except.ok kv.2
  | none => Except.error ⟨"Unsupported period " ++ periodKey⟩

/-- A finstate row as returned by OpenDartReader (after `_to_records`).
`Option` fields model missing keys / `None` cells. -/
structure FinRow where
  account_nm : String
  account_id : Option String
  thstrm_nm : Option String
  thstrm_dt : Option String
  thstrm_amount : Option CellVal
  frmtrm_nm : Option String
  frmtrm_dt : Option String
  frmtrm_amount : Option CellVal
  bfefrmtrm_amount : Option CellVal
  currency : Option String
  rcept_no : Option String
deriving DecidableEq, Repr

/-- The `report` sub-dict built by `_build_metric_response`. -/
structure ReportInfo where
  year : Int
  period : String
  reprt_code : String
  reprt_name : String
  consolidated : Bool
deriving DecidableEq, Repr

/-- The dict built by `OpenDartClient._build_metric_response`
(`dart_client.py:344-379`). -/
structure FinMetric where
  account_name : String
  account_id : Option String
  current_amount : Option PyFloat
  current_label : Option String
  current_date : Option String
  previous_amount : Option PyFloat
  previous_label : Option String
  previous_date : Option String
  two_periods_ago_amount : Option PyFloat
  currency : String
  report : ReportInfo
  raw : FinRow
deriving DecidableEq, Repr

/-- A filing row from `list_filings` (the keys the client reads). -/
structure DartFiling where
  report_nm : String
  rcept_no : Option String
  rcept_dt : Option String
  bsns_year : Option String
  yearField : Option String
deriving DecidableEq, Repr

/-- Observable upstream responses for one `OpenDartClient` call tree:
the client's own corp code, today's year (used by `_build_year_candidates`
when inference fails), the `list_filings(kind="A", limit=1)` outcome, and
the `finstate(corp, year, reprt_code)` outcome per query. -/
structure DartEnv where
  selfCorpCode : Option String
  todayYear : Int
  listFilingsA : Except OpenDartError (List DartFiling)
  finstate : String → Int → String → Except OpenDartError (List FinRow)

/-- Embeds `OpenDartClient._ensure_corp_code` plus `_normalize_corp_code`
(`dart_client.py:116-144`): Python-truthy `or`, then strip, raising on a
blank result. -/
def ensureCorpCode (env : DartEnv) (corpCode : Option String) :
    Except OpenDartError String :=
  match pyOrStr corpCode env.selfCorpCode with
  | none => Except.error ⟨"corp_code is required"⟩
  | some code =>
    if code = "" then Except.error ⟨"corp_code is required"⟩
    else
      let stripped := pyStrip code
      if stripped = "" then Except.error ⟨"corp_code cannot be empty"⟩
      else Except.ok stripped

/-- Embeds `OpenDartClient.get_financial_statements` (`dart_client.py:284-306`). -/
def getFinancialStatements (env : DartEnv) (year : Int) (period : String)
    (corpCode : Option String) : Except OpenDartError (List FinRow) := do
  let code ← ensureCorpCode env corpCode
  let reprtCode ← resolveReportCode period
  env.finstate code year reprtCode

/-- Embeds `OpenDartClient._build_metric_response` (`dart_client.py:344-379`). -/
def buildMetricResponse (row : FinRow) (year : Int) (period : String)
    (consolidated : Bool) : Except OpenDartError FinMetric := do
  let reprtCode ← resolveReportCode period
  let currencyRaw :=
    match pyOrStr row.currency (some "KRW") with
    | some s => s
    | none => "KRW"
  let currencyNorm := pyLower (pyStrip currencyRaw)
  Except.ok
    { account_name := row.account_nm
      account_id := row.account_id
      current_amount := parseAmount row.thstrm_amount
      current_label := row.thstrm_nm
      current_date := row.thstrm_dt
      previous_amount := parseAmount row.frmtrm_amount
      previous_label := row.frmtrm_nm
      previous_date := row.frmtrm_dt
      two_periods_ago_amount := parseAmount row.bfefrmtrm_amount
      currency := currencyNorm
      report :=
        { year := year
          period := period
          reprt_code := reprtCode
          reprt_name :=
            match REPORT_CODE_LABELS.find? (fun kv => kv.1 = reprtCode) with
            | some kv => kv.2
            | none => reprtCode
          consolidated := consolidated }
      raw := row }

/-- Embeds `OpenDartClient.get_financial_metric` (`dart_client.py:308-342`): an
empty account-name list is rejected with `OpenDartError`; otherwise the
first row whose lower-cased `account_nm` appears in the lower-cased
candidate list is returned. -/
def getFinancialMetric (env : DartEnv) (accountNames : List String)
    (year : Int) (period : String) (corpCode : Option String)
    (consolidated : Bool) : Except OpenDartError (Option FinMetric) :=
  if accountNames.isEmpty then
    Except.error ⟨"account_names must contain at least one entry"⟩
  else do
    let statements ← getFinancialStatements env year period corpCode
    if statements.isEmpty then return none
    else
      let lowered := accountNames.map pyLower
      match statements.find? (fun row => pyLower row.account_nm ∈ lowered) with
      | some row => do
        let m ← buildMetricResponse row year period consolidated
        return (some m)
      | none => return none

/-! ## Year and period inference (`dart_client.py:440-544`) -/

/-- Python `int(s)` on an optionally signed digit string. -/
def parseIntString (s : String) : Option Int :=
  let cs := (pyStrip s).data
  let signSplit : Bool × List Char :=
    match cs with
    | '+' :: r => (false, r)
    | '-' :: r => (true, r)
    | r => (false, r)
  if signSplit.2.isEmpty || !(signSplit.2.all Char.isDigit) then none
  else some (if signSplit.1 then -(digitsToNat signSplit.2 : Int)
             else (digitsToNat signSplit.2 : Int))

/-- One probe of `_extract_year`: a falsy value is skipped, otherwise
`int(str(value)[:4])`, skipping on `ValueError`. -/
def extractYearFrom (v : Option String) : Option Int :=
  match v with
  | none => none
  | some s => if s = "" then none else parseIntString (takeStr 4 s)

/-- Embeds `OpenDartClient._extract_year` (`dart_client.py:506-517`): probe the
keys `bsns_year`, `year`, `rcept_dt` in order. -/
def extractYear (filing : DartFiling) : Option Int :=
  match extractYearFrom filing.bsns_year with
  | some y => some y
  | none =>
    match extractYearFrom filing.yearField with
    | some y => some y
    | none => extractYearFrom filing.rcept_dt

/-- Match `20\d{2}` at the head of the character list. -/
def yearAt : List Char → Option Int
  | '2' :: '0' :: a :: b :: _ =>
    if a.isDigit && b.isDigit then
      some ((2000 + 10 * (a.toNat - '0'.toNat) + (b.toNat - '0'.toNat) : Nat) : Int)
    else none
  | _ => none

/-- Leftmost occurrence of `20\d{2}`, as `re.search` finds it. -/
def findYearSeq : List Char → Option Int
  | [] => none
  | c :: rest =>
    match yearAt (c :: rest) with
    | some y => some y
    | none => findYearSeq rest

/-- Embeds `OpenDartClient._extract_year_from_report` (`dart_client.py:519-525`). -/
def extractYearFromReport (report_nm : String) : Option Int :=
  if report_nm = "" then none else findYearSeq report_nm.data

/-- The keyword-to-period mapping of `_infer_period_from_report`
(`dart_client.py:527-544`), in dict insertion order. -/
def periodKeywordMap : List (String × String) :=
  [("반기", "half"), ("semi", "half"), ("사업", "annual"), ("연간", "annual"),
   ("1분기", "q1"), ("1q", "q1"), ("3분기", "q3"), ("3q", "q3")]

/-- Embeds `OpenDartClient._infer_period_from_report`. -/
def inferPeriodFromReport (report_nm : String) : Option String :=
  if report_nm = "" then none
  else
    let lower := pyLower report_nm
    match periodKeywordMap.find? (fun kv => strContains lower kv.1) with
    | some kv => some kv.2
    | none => none

/-- Embeds `OpenDartClient._infer_reporting_context` (`dart_client.py:440-450`),
including the Python-truthiness fallthrough on `_extract_year(...) or
_extract_year_from_report(...)`. -/
def inferReportingContext (env : DartEnv) :
    Except OpenDartError (Option Int × Option String × Option DartFiling) := do
  let filings ← env.listFilingsA
  match filings with
  | [] => return (none, none, none)
  | filing :: _ =>
    let reportNm := filing.report_nm
    let year :=
      match extractYear filing with
      | some y => if y = 0 then extractYearFromReport reportNm else some y
      | none => extractYearFromReport reportNm
    return (year, inferPeriodFromReport reportNm, some filing)

/-- Keep the first occurrence of each value (the `unique`/`seen` loop of
`_build_year_candidates`). -/
def dedupKeepFirst (seen : List Int) : List Int → List Int
  | [] => []
  | v :: vs =>
    if v ∈ seen then dedupKeepFirst seen vs
    else v :: dedupKeepFirst (v :: seen) vs

/-- Embeds `OpenDartClient._build_year_candidates` (`dart_client.py:452-471`). -/
def buildYearCandidates (todayYear : Int) (explicitYear : Option Int)
    (inferredYear : Option Int) : List Int :=
  match explicitYear with
  | some y => [y]
  | none =>
    let candidates :=
      match inferredYear with
      | some iy => [iy, iy - 1]
      | none => [todayYear, todayYear - 1]
    dedupKeepFirst [] candidates

/-- The `if period not in candidates: candidates.append(period)` loop of
`_build_period_candidates`. -/
def appendMissing (candidates : List String) : List String → List String
  | [] => candidates
  | p :: ps =>
    if p ∈ candidates then appendMissing candidates ps
    else appendMissing (candidates ++ [p]) ps

/-- The inference path of `_build_period_candidates`: the truthy inferred
period (if any) first, then the fallback order without duplicates. -/
def buildPeriodFallback (inferredPeriod : Option String) : List String :=
  let base :=
    match inferredPeriod with
    | some p => if p = "" then [] else [p]
    | none => []
  appendMissing base PERIOD_FALLBACK_ORDER

/-- Embeds `OpenDartClient._build_period_candidates` (`dart_client.py:473-484`);
note `if explicit_period:` is Python truthiness, so an empty string does
not count as explicit. -/
def buildPeriodCandidates (explicitPeriod : Option String)
    (inferredPeriod : Option String) : List String :=
  match explicitPeriod with
  | some p => if p = "" then buildPeriodFallback inferredPeriod else [p]
  | none => buildPeriodFallback inferredPeriod

/-! ## Payload assembly and the DART `get_latest_metric` loop -/

/-- If a dash leads the list, regex `-?` consumes it. -/
def dropDash : List Char → List Char
  | '-' :: r => r
  | r => r

/-- Anchored match of `(\d{4})-?(\d{2})-?(\d{2})`, returning the three
digit groups. -/
def matchDate (cs : List Char) : Option (List Char × List Char × List Char) :=
  match cs with
  | a :: b :: c :: d :: rest =>
    if a.isDigit && b.isDigit && c.isDigit && d.isDigit then
      match dropDash rest with
      | e :: f :: rest2 =>
        if e.isDigit && f.isDigit then
          match dropDash rest2 with
          | g :: h :: _ =>
            if g.isDigit && h.isDigit then some ([a, b, c, d], [e, f], [g, h])
            else none
          | _ => none
        else none
      | _ => none
    else none
  | _ => none

/-- Embeds `OpenDartClient._normalize_date_string` (`dart_client.py:497-504`). -/
def normalizeDateString (text : Option String) : String :=
  match text with
  | none => ""
  | some t =>
    let cleaned : String :=
      ⟨(pyStrip t).data.map (fun c => if c = '.' || c = '/' then '-' else c)⟩
    match matchDate cleaned.data with
    | some groups =>
      (⟨groups.1⟩ : String) ++ "-" ++ (⟨groups.2.1⟩ : String) ++ "-" ++
        (⟨groups.2.2⟩ : String)
    | none => cleaned

/-- Python `text.split("~")[-1]`. -/
def afterLastTilde (cs : List Char) : List Char :=
  (cs.reverse.takeWhile (fun c => c ≠ '~')).reverse

/-- Embeds `OpenDartClient._extract_period_end` (`dart_client.py:486-495`). -/
def extractPeriodEnd (periodText : Option String) : Option String :=
  match periodText with
  | none => none
  | some t =>
    if t = "" then none
    else
      let endPart : String :=
        if strContains t "~" then ⟨afterLastTilde t.data⟩ else t
      let normalized := normalizeDateString (some (pyStrip endPart))
      if normalized = "" then none else some normalized

/-- The dict built by `_build_latest_metric_payload`
(`dart_client.py:415-438`). -/
structure DartPayload where
  tag : String
  value : Option PyFloat
  endDate : Option String
  currency : String
  accession : Option String
  form : String
  filed : Option String
  fiscal_year : Int
  fiscal_period : String
deriving DecidableEq, Repr

/-- Embeds `OpenDartClient._build_latest_metric_payload`. -/
def buildLatestMetricPayload (metric : FinMetric)
    (filing : Option DartFiling) : DartPayload :=
  let periodKey := pyLower metric.report.period
  let fiscalLabel :=
    match PERIOD_FISCAL_LABEL.find? (fun kv => kv.1 = periodKey) with
    | some kv => kv.2
    | none => pyUpper periodKey
  { tag := metric.account_name
    value := metric.current_amount
    endDate := extractPeriodEnd metric.current_date
    currency := metric.currency
    accession := pyOrStr metric.raw.rcept_no (filing.bind (fun f => f.rcept_no))
    form := metric.report.reprt_name
    filed := filing.bind (fun f => f.rcept_dt)
    fiscal_year := metric.report.year
    fiscal_period := fiscalLabel }

/-- The inner `for candidate_period in periods_to_try` loop of
`get_latest_metric` (`dart_client.py:402-411`): skip candidates whose
metric is missing or has no parsed current amount. -/
def tryPeriodCandidates (env : DartEnv) (code : String)
    (names : List String) (filing : Option DartFiling) (year : Int) :
    List String → Except OpenDartError (Option DartPayload)
  | [] => Except.ok none
  | p :: ps => do
    let metric ← getFinancialMetric env names year p (some code) true
    match metric with
    | some m =>
      if m.current_amount.isSome then
        return (some (buildLatestMetricPayload m filing))
      else tryPeriodCandidates env code names filing year ps
    | none => tryPeriodCandidates env code names filing year ps

/-- The outer `for candidate_year in years_to_try` loop of
`get_latest_metric`. -/
def tryYearCandidates (env : DartEnv) (code : String) (names : List String)
    (filing : Option DartFiling) (periods : List String) :
    List Int → Except OpenDartError (Option DartPayload)
  | [] => Except.ok none
  | y :: ys => do
    let r ← tryPeriodCandidates env code names filing y periods
    match r with
    | some payload => return (some payload)
    | none => tryYearCandidates env code names filing periods ys

/-- Embeds `OpenDartClient.get_latest_metric` (`dart_client.py:384-413`): an empty
account-name list is rejected with `OpenDartError` before anything else;
otherwise the year/period candidate grid is scanned in order. -/
def dartGetLatestMetric (env : DartEnv) (accountNames : List String)
    (year : Option Int) (period : Option String) (corpCode : Option String) :
    Except OpenDartError (Option DartPayload) :=
  if accountNames.isEmpty then
    Except.error ⟨"account_names must contain at least one value"⟩
  else do
    let code ← ensureCorpCode env corpCode
    let ctx ← inferReportingContext env
    let yearsToTry := buildYearCandidates env.todayYear year ctx.1
    let periodsToTry := buildPeriodCandidates period ctx.2.1
    tryYearCandidates env code accountNames ctx.2.2 periodsToTry yearsToTry

/-! ## Auxiliary definitions used by the verification -/

/-- Decidable equality of `Except` results, so concrete client outcomes
can be compared by evaluation. -/
instance {ε α : Type} [DecidableEq ε] [DecidableEq α] :
    DecidableEq (Except ε α) := fun a b =>
  match a, b with
  | Except.ok x, Except.ok y =>
    if h : x = y then isTrue (by rw [h])
    else isFalse (fun hc => by cases hc; exact h rfl)
  | Except.ok _, Except.error _ => isFalse (fun hc => by cases hc)
  | Except.error _, Except.ok _ => isFalse (fun hc => by cases hc)
  | Except.error x, Except.error y =>
    if h : x = y then isTrue (by rw [h])
    else isFalse (fun hc => by cases hc; exact h rfl)

/-- The first element with maximal key in `x :: xs` (later elements win
only on a strictly larger key). -/
def firstMaxFact (x : RawFact) : List RawFact → RawFact
  | [] => x
  | y :: ys =>
    if strLt (factKey x) (factKey (firstMaxFact y ys)) then firstMaxFact y ys
    else x

/-! ## Concrete fixtures used by counterexamples and witnesses -/

/-- A company-facts document with one revenue observation. -/
def factsRevenues : CompanyFacts :=
  ⟨some "TestCo",
   [("Revenues", ⟨[⟨some 150, some "2023-12-31", some "0001-23-000123",
                    some "10-K", some "2024-01-15", some 2023, some "FY"⟩]⟩)]⟩

/-- A poll in which the newest 10-K has accession `"X"` and the facts
document is available. -/
def pollEnvX : PollEnv :=
  ⟨Except.ok ⟨some ⟨["10-K"], ["X"], ["2024-01-15"]⟩⟩, some factsRevenues⟩

/-- A poll in which the newest filing has accession `"Y"`. -/
def pollEnvY : PollEnv :=
  ⟨Except.ok ⟨some ⟨["10-Q"], ["Y"], ["2024-04-15"]⟩⟩, some factsRevenues⟩

/-- A poll in which the newest filing has accession `"X"` but the facts
fetch failed (`get_company_facts` returned `None`). -/
def pollEnvXNoFacts : PollEnv :=
  ⟨Except.ok ⟨some ⟨["10-K"], ["X"], ["2024-01-15"]⟩⟩, none⟩

/-- A resolver watching the `Revenues` tag with estimate 100. -/
def resolverCfg : ResolverConfig := ⟨"0000320193", ["Revenues"], 100⟩

/-- Facts in which tag `A` is absent while `B` and `C` are both present. -/
def factsBC : CompanyFacts :=
  ⟨some "TestCo",
   [("B", ⟨[⟨some 7, some "2024-03-31", some "accB", some "10-Q",
             some "2024-04-15", some 2024, some "Q1"⟩]⟩),
    ("C", ⟨[⟨some 9, some "2024-06-30", some "accC", some "10-Q",
             some "2024-07-15", some 2024, some "Q2"⟩]⟩)]⟩

/-- The metric extracted from tag `B` of `factsBC`. -/
def metricB : SecMetric :=
  ⟨"B", 7, "2024-03-31", "usd", "accB", "10-Q", "2024-04-15", some 2024, "Q1"⟩

/-- Facts with a single tag holding two valid observations that share the
same `period_end`; the provider lists value 1 first and value 2 last. -/
def factsTie : CompanyFacts :=
  ⟨some "TestCo",
   [("T", ⟨[⟨some 1, some "2024-12-31", some "accT1", some "10-K",
             some "2025-01-15", some 2024, some "FY"⟩,
            ⟨some 2, some "2024-12-31", some "accT2", some "10-K",
             some "2025-01-16", some 2024, some "FY"⟩]⟩)]⟩

/-- The metric `secGetLatestMetric` extracts from `factsRevenues`. -/
def metricRevenues : SecMetric :=
  ⟨"Revenues", 150, "2023-12-31", "usd", "0001-23-000123", "10-K",
   "2024-01-15", some 2023, "FY"⟩

/-- The record emitted by the first poll of `pollEnvX` from a fresh state. -/
def recordX : Resolution :=
  ⟨"0000320193", "TestCo", "10-K", "X", "2024-01-15", "Revenues", 150,
   "2023-12-31", some 2023, "FY", 100, "YES"⟩

/-- The tied metric selected from `factsTie` (the first-listed of the two
equal-dated observations). -/
def metricTie : SecMetric :=
  ⟨"T", 1, "2024-12-31", "usd", "accT1", "10-K", "2025-01-15", some 2024, "FY"⟩

/-- A finstate row whose current amount is the placeholder `"—"`. -/
def rowDash : FinRow :=
  ⟨"매출액", none, some "제 55 기", some "2023.01.01 ~ 2023.12.31",
   some (CellVal.str "—"), none, none, none, none, some "KRW",
   some "20240312000736"⟩

/-- A DART environment in which every finstate query returns only
`rowDash`, whose amount cell is unparseable. -/
def dartEnvPlaceholder : DartEnv :=
  ⟨some "00126380", 2024,
   Except.ok [⟨"사업보고서 (2023.12)", some "20240312000736",
               some "20240312", none, none⟩],
   fun _ _ _ => Except.ok [rowDash]⟩

/-! ## Helper lemmas about the resolution step -/

/-- Case analysis of one `check_for_resolution` call: either it is a no-op
on the state and returns nothing, or it returns a record for the newest
filing and stores that filing's accession. -/
theorem resolve_step_cases (cfg : ResolverConfig) (st : Option String) (env : PollEnv) :
    checkForResolution cfg st env = (st, none) ∨
    ∃ r : Resolution, (checkForResolution cfg st env).2 = some r ∧
      (checkForResolution cfg st env).1 = some r.accession ∧
      newestAccession env = some r.accession ∧
      r.outcome = outcomeOf r.value cfg.estimate ∧
      r.estimate = cfg.estimate ∧
      some r.accession ≠ st := by
  unfold checkForResolution
  split
  · exact Or.inl rfl
  · rename_i latestFiling rest heq
    split
    · exact Or.inl rfl
    · rename_i hacc
      split
      · exact Or.inl rfl
      · rename_i facts hfacts
        split
        · exact Or.inl rfl
        · rename_i metricData hmetric
          refine Or.inr ⟨_, rfl, ?_, ?_, ?_, ?_, ?_⟩
          · rfl
          · unfold newestAccession
            rw [heq]
            rfl
          · rfl
          · rfl
          · exact hacc

/-- If no record is produced, the engine state is unchanged. -/
theorem resolve_step_none_state (cfg : ResolverConfig) (st : Option String)
    (env : PollEnv) (h : (checkForResolution cfg st env).2 = none) :
    (checkForResolution cfg st env).1 = st := by
  rcases resolve_step_cases cfg st env with heq | ⟨r, h2, _⟩
  · rw [heq]
  · rw [h] at h2
    cases h2

/-- The dedup gate: if the state already holds the newest filing's
accession, the call is a complete no-op. -/
theorem resolve_step_blocked (cfg : ResolverConfig) (env : PollEnv) (acc : String)
    (h : newestAccession env = some acc) :
    checkForResolution cfg (some acc) env = (some acc, none) := by
  rcases resolve_step_cases cfg (some acc) env with heq | ⟨r, _, _, hnew, _, _, hne⟩
  · exact heq
  · rw [h] at hnew
    exact absurd (congrArg some (Option.some.inj hnew)).symm hne

/-- An empty (post-filter) listings response leaves everything unchanged. -/
theorem resolve_step_nofilings (cfg : ResolverConfig) (st : Option String)
    (env : PollEnv) (h : newestAccession env = none) :
    checkForResolution cfg st env = (st, none) := by
  unfold newestAccession at h
  unfold checkForResolution
  cases hl : secGetRecentFilings env.submissions TARGET_FORMS with
  | nil => rfl
  | cons f rest =>
    rw [hl] at h
    simp at h

/-- Once the state holds `acc`, a run of polls that keep reporting `acc`
as newest (or report nothing) emits no record at all. -/
theorem runTrace_blocked (cfg : ResolverConfig) (acc : String) :
    ∀ envs : List PollEnv,
      (∀ e ∈ envs, newestAccession e = some acc ∨ newestAccession e = none) →
      runTrace cfg (some acc) envs = [] := by
  intro envs
  induction envs with
  | nil => intro _; rfl
  | cons e es ih =>
    intro hall
    have hrest : ∀ e2 ∈ es, newestAccession e2 = some acc ∨ newestAccession e2 = none :=
      fun e2 h2 => hall e2 (List.mem_cons_of_mem e h2)
    rcases hall e (List.mem_cons_self e es) with hX | hnone
    · have hb := resolve_step_blocked cfg e acc hX
      simp [runTrace, hb, ih hrest]
    · have hb := resolve_step_nofilings cfg (some acc) e hnone
      simp [runTrace, hb, ih hrest]

/-- Decompose a defined newest accession into the head of the filtered
listings. -/
theorem newest_decomp (env : PollEnv) (acc : String)
    (h : newestAccession env = some acc) :
    ∃ f rest, secGetRecentFilings env.submissions TARGET_FORMS = f :: rest ∧
      f.accession = acc := by
  unfold newestAccession at h
  cases hl : secGetRecentFilings env.submissions TARGET_FORMS with
  | nil => rw [hl] at h; simp at h
  | cons f rest =>
    rw [hl] at h
    simp only [List.head?, Option.map_some] at h
    exact ⟨f, rest, rfl, Option.some.inj h⟩

/-- A novel filing whose extraction fails leaves state and output
untouched (`resolver.py:48-57`). -/
theorem resolve_step_no_metric (cfg : ResolverConfig) (st : Option String)
    (env : PollEnv) (f : FilingSummary) (rest : List FilingSummary)
    (hl : secGetRecentFilings env.submissions TARGET_FORMS = f :: rest)
    (hne : some f.accession ≠ st)
    (hm : secGetLatestMetric env.facts cfg.tags = none) :
    checkForResolution cfg st env = (st, none) := by
  unfold checkForResolution
  simp only [hl]
  rw [if_neg hne]
  cases hf : env.facts with
  | none => rfl
  | some fct =>
    rw [hf] at hm
    simp only [secGetLatestMetric] at hm
    simp only [secGetLatestMetric, hm]

/-- A novel filing whose extraction succeeds produces a record carrying
the filing's accession and the comparison outcome. -/
theorem resolve_step_success (cfg : ResolverConfig) (st : Option String)
    (env : PollEnv) (f : FilingSummary) (rest : List FilingSummary)
    (m : SecMetric)
    (hl : secGetRecentFilings env.submissions TARGET_FORMS = f :: rest)
    (hne : some f.accession ≠ st)
    (hm : secGetLatestMetric env.facts cfg.tags = some m) :
    ∃ r, checkForResolution cfg st env = (some f.accession, some r) ∧
      r.accession = f.accession ∧ r.value = m.value ∧
      r.outcome = outcomeOf m.value cfg.estimate := by
  unfold checkForResolution
  simp only [hl]
  rw [if_neg hne]
  cases hf : env.facts with
  | none =>
    rw [hf] at hm
    cases hm
  | some fct =>
    rw [hf] at hm
    simp only [secGetLatestMetric] at hm
    simp only [secGetLatestMetric, hm]
    exact ⟨_, rfl, rfl, rfl, rfl⟩

/-! ## Claim theorems -/

/-- C1: for every metric value `V` and threshold `T`, the resolution
outcome is `YES` iff `V > T` (strict), so `V = T` yields `NO`; and every
record the engine emits satisfies this relation between its value and its
stored estimate. -/
theorem c1_outcome_strict_threshold :
    (∀ V T : ℚ, (outcomeOf V T = "YES" ↔ V > T) ∧ (V = T → outcomeOf V T = "NO")) ∧
    (∀ (cfg : ResolverConfig) (st : Option String) (env : PollEnv) (r : Resolution),
      (checkForResolution cfg st env).2 = some r →
      (r.outcome = "YES" ↔ r.value > r.estimate)) := by
  constructor
  · intro V T
    constructor
    · unfold outcomeOf
      split_ifs with h
      · exact ⟨fun _ => h, fun _ => rfl⟩
      · exact ⟨fun hc => absurd hc (by decide), fun hv => absurd hv h⟩
    · intro hVT
      unfold outcomeOf
      split_ifs with h
      · rw [hVT] at h
        exact absurd h (lt_irrefl T)
      · rfl
  · intro cfg st env r hr
    rcases resolve_step_cases cfg st env with heq | ⟨r2, h2, _, _, hout, hest, _⟩
    · rw [heq] at hr
      cases hr
    · rw [h2] at hr
      cases Option.some.inj hr
      rw [hout, hest]
      unfold outcomeOf
      split_ifs with h
      · exact ⟨fun _ => h, fun _ => rfl⟩
      · exact ⟨fun hc => absurd hc (by decide), fun hv => absurd hv h⟩

/-- C1 witness: at `V = T = 5` the outcome is `NO`, and the record emitted
for the concrete poll `pollEnvX` satisfies the strict-inequality law. -/
theorem c1_witness :
    outcomeOf 5 5 = "NO" ∧
    (recordX.outcome = "YES" ↔ recordX.value > recordX.estimate) :=
  ⟨(c1_outcome_strict_threshold.1 5 5).2 rfl,
   c1_outcome_strict_threshold.2 resolverCfg none pollEnvX recordX (by decide)⟩

/-- C2 counterexample: the trace whose newest filings are X, then Y, then
X again produces a second ResolutionRecord for X, so at most one record
per distinct filing id over the engine lifetime does not hold. -/
theorem c2_counterexample :
    (runTrace resolverCfg none [pollEnvX, pollEnvY, pollEnvX]).map
        (fun r => r.accession) = ["X", "Y", "X"] ∧
    ((runTrace resolverCfg none [pollEnvX, pollEnvY, pollEnvX]).filter
        (fun r => r.accession = "X")).length = 2 := by
  decide

/-- C2 amended: over any run of polls in which every listing still reports
`acc` as the newest filing (or reports nothing), at most one
ResolutionRecord is produced, from any starting state; re-observing the
same filing id never re-resolves.  (Lifetime uniqueness per distinct id
fails only when the newest id reverts after an intervening resolution, as
the counterexample shows.) -/
theorem c2_amended_once_per_filing (cfg : ResolverConfig) (acc : String) :
    ∀ envs : List PollEnv,
      (∀ e ∈ envs, newestAccession e = some acc ∨ newestAccession e = none) →
      ∀ st, (runTrace cfg st envs).length ≤ 1 := by
  intro envs
  induction envs with
  | nil =>
    intro _ st
    simp [runTrace]
  | cons e es ih =>
    intro hall st
    have hrest : ∀ e2 ∈ es, newestAccession e2 = some acc ∨ newestAccession e2 = none :=
      fun e2 h2 => hall e2 (List.mem_cons_of_mem e h2)
    rcases resolve_step_cases cfg st e with heq | ⟨r, h2, h1, hnew, _, _, _⟩
    · simp only [runTrace, heq]
      simpa using ih hrest st
    · have hacc : r.accession = acc := by
        rcases hall e (List.mem_cons_self e es) with hX | hnone
        · rw [hnew] at hX
          exact Option.some.inj hX
        · rw [hnew] at hnone
          cases hnone
      have hblocked := runTrace_blocked cfg acc es hrest
      simp [runTrace, h2, h1, hacc, hblocked]

/-- C2 witness: two consecutive polls that both report accession `X` as
newest produce at most one record. -/
theorem c2_witness : (runTrace resolverCfg none [pollEnvX, pollEnvX]).length ≤ 1 :=
  c2_amended_once_per_filing resolverCfg "X" [pollEnvX, pollEnvX] (by decide) none

/-- C3: a cycle whose extraction fails for a novel filing is a complete
no-op on the engine state; the state is mutated only when a record is
returned; and a later poll that still reports the same filing re-attempts
the fetch and extraction, resolving it when the data has appeared. -/
theorem c3_retry_on_incomplete_data :
    (∀ (cfg : ResolverConfig) (st : Option String) (env : PollEnv)
        (f : FilingSummary) (rest : List FilingSummary),
      secGetRecentFilings env.submissions TARGET_FORMS = f :: rest →
      some f.accession ≠ st →
      secGetLatestMetric env.facts cfg.tags = none →
      checkForResolution cfg st env = (st, none)) ∧
    (∀ (cfg : ResolverConfig) (st : Option String) (env : PollEnv),
      (checkForResolution cfg st env).1 ≠ st →
      ∃ r, (checkForResolution cfg st env).2 = some r) ∧
    (∀ (cfg : ResolverConfig) (st : Option String) (env1 env2 : PollEnv)
        (acc : String) (m : SecMetric),
      newestAccession env1 = some acc → some acc ≠ st →
      secGetLatestMetric env1.facts cfg.tags = none →
      newestAccession env2 = some acc →
      secGetLatestMetric env2.facts cfg.tags = some m →
      ∃ r, runTrace cfg st [env1, env2] = [r] ∧ r.accession = acc) := by
  refine ⟨resolve_step_no_metric, ?_, ?_⟩
  · intro cfg st env hne
    rcases resolve_step_cases cfg st env with heq | ⟨r, h2, _⟩
    · rw [heq] at hne
      exact absurd rfl hne
    · exact ⟨r, h2⟩
  · intro cfg st env1 env2 acc m h1new hnest hm1 h2new hm2
    obtain ⟨f1, rest1, hl1, hf1⟩ := newest_decomp env1 acc h1new
    obtain ⟨f2, rest2, hl2, hf2⟩ := newest_decomp env2 acc h2new
    have hskip : checkForResolution cfg st env1 = (st, none) :=
      resolve_step_no_metric cfg st env1 f1 rest1 hl1 (hf1 ▸ hnest) hm1
    obtain ⟨r, hstep2, hracc, _, _⟩ :=
      resolve_step_success cfg st env2 f2 rest2 m hl2 (hf2 ▸ hnest) hm2
    refine ⟨r, ?_, hracc.trans hf2⟩
    simp [runTrace, hskip, hstep2]

/-- C3 witness: with facts unavailable the poll for the novel filing `X`
changes nothing, and the two-poll trace in which the facts then appear
resolves `X` on the retry. -/
theorem c3_witness :
    checkForResolution resolverCfg none pollEnvXNoFacts = (none, none) ∧
    (∃ r, runTrace resolverCfg none [pollEnvXNoFacts, pollEnvX] = [r] ∧
      r.accession = "X") :=
  ⟨c3_retry_on_incomplete_data.1 resolverCfg none pollEnvXNoFacts
      ⟨"10-K", "X", "2024-01-15"⟩ [] (by decide) (by decide) (by decide),
   c3_retry_on_incomplete_data.2.2 resolverCfg none pollEnvXNoFacts pollEnvX
      "X" metricRevenues (by decide) (by decide) (by decide) (by decide) (by decide)⟩

/-! ## Order lemmas for the code-point comparison -/

theorem charListLt_irrefl : ∀ l : List Char, charListLt l l = false := by
  intro l
  induction l with
  | nil => rfl
  | cons a as ih => simp [charListLt, ih]

theorem charListLt_asymm : ∀ a b : List Char,
    charListLt a b = true → charListLt b a = false := by
  intro a
  induction a with
  | nil =>
    intro b h
    cases b with
    | nil => cases h
    | cons y ys => rfl
  | cons x xs ih =>
    intro b h
    cases b with
    | nil => cases h
    | cons y ys =>
      simp only [charListLt] at h ⊢
      by_cases h1 : x.toNat < y.toNat
      · rw [if_neg (Nat.lt_asymm h1), if_pos h1]
      · rw [if_neg h1] at h
        by_cases h2 : y.toNat < x.toNat
        · rw [if_pos h2] at h
          cases h
        · rw [if_neg h2] at h
          rw [if_neg h2, if_neg h1]
          exact ih ys h

theorem charListLt_cotrans : ∀ a c : List Char, charListLt a c = true →
    ∀ b : List Char, charListLt a b = true ∨ charListLt b c = true := by
  intro a
  induction a with
  | nil =>
    intro c h b
    cases c with
    | nil => cases h
    | cons z zs =>
      cases b with
      | nil => exact Or.inr rfl
      | cons y ys => exact Or.inl rfl
  | cons x xs ih =>
    intro c h b
    cases c with
    | nil => cases h
    | cons z zs =>
      cases b with
      | nil => exact Or.inr rfl
      | cons y ys =>
        simp only [charListLt] at h ⊢
        by_cases hxz : x.toNat < z.toNat
        · by_cases hxy : x.toNat < y.toNat
          · exact Or.inl (by rw [if_pos hxy])
          · refine Or.inr ?_
            rw [if_pos (Nat.lt_of_le_of_lt (Nat.le_of_not_lt hxy) hxz)]
        · by_cases hzx : z.toNat < x.toNat
          · rw [if_neg hxz, if_pos hzx] at h
            cases h
          · rw [if_neg hxz, if_neg hzx] at h
            by_cases hxy : x.toNat < y.toNat
            · exact Or.inl (by rw [if_pos hxy])
            · by_cases hyx : y.toNat < x.toNat
              · refine Or.inr ?_
                have hyz : y.toNat < z.toNat := by omega
                rw [if_pos hyz]
              · rcases ih zs h ys with hl | hr
                · exact Or.inl (by rw [if_neg hxy, if_neg hyx]; exact hl)
                · refine Or.inr ?_
                  have hyz : ¬ y.toNat < z.toNat := by omega
                  have hzy : ¬ z.toNat < y.toNat := by omega
                  rw [if_neg hyz, if_neg hzy]
                  exact hr

theorem strLt_irrefl (a : String) : strLt a a = false :=
  charListLt_irrefl a.data

theorem strLt_asymm {a b : String} (h : strLt a b = true) : strLt b a = false :=
  charListLt_asymm a.data b.data h

theorem strLt_cotrans {a c : String} (h : strLt a c = true) (b : String) :
    strLt a b = true ∨ strLt b c = true :=
  charListLt_cotrans a.data c.data h b.data

theorem strLe_refl (a : String) : strLe a a = true := by
  simp [strLe, strLt_irrefl]

theorem strLe_of_lt {a b : String} (h : strLt a b = true) : strLe a b = true := by
  simp [strLe, strLt_asymm h]

theorem strLe_of_not_lt {a b : String} (h : strLt b a = false) :
    strLe a b = true := by
  simp [strLe, h]

/-- From `z ≤ m` and `¬ x < m` conclude `z ≤ x` for the code-point order. -/
theorem strLe_trans_of_not_lt {z m x : String} (h1 : strLe z m = true)
    (hx : strLt x m = false) : strLe z x = true := by
  unfold strLe at h1 ⊢
  cases hxz : strLt x z with
  | false => rfl
  | true =>
    rcases strLt_cotrans hxz m with hcase | hcase
    · rw [hcase] at hx
      cases hx
    · rw [hcase] at h1
      cases h1

/-! ## Helper lemmas for the tag loop and the observation sort -/

/-- A tag with no valid observation is skipped. -/
theorem tagLoop_skip_none (f : CompanyFacts) (a : String) (ts : List String)
    (h : tagMetric f a = none) : tagLoop f (a :: ts) = tagLoop f ts := by
  simp [tagLoop, h]

/-- Skipping a prefix of tags without valid observations, the first tag
with a valid observation supplies the result, whatever follows it. -/
theorem tagLoop_first_match (f : CompanyFacts) :
    ∀ (ts1 : List String) (t : String) (ts2 : List String) (m : SecMetric),
      (∀ a ∈ ts1, tagMetric f a = none) → tagMetric f t = some m →
      tagLoop f (ts1 ++ t :: ts2) = some m := by
  intro ts1
  induction ts1 with
  | nil =>
    intro t ts2 m _ h2
    simp [tagLoop, h2]
  | cons a as ih =>
    intro t ts2 m h1 h2
    rw [List.cons_append, tagLoop_skip_none f a _ (h1 a (List.mem_cons_self a as))]
    exact ih t ts2 m (fun b hb => h1 b (List.mem_cons_of_mem a hb)) h2

/-- If no tag yields a valid observation the loop returns `none`. -/
theorem tagLoop_all_none (f : CompanyFacts) :
    ∀ ts : List String, (∀ a ∈ ts, tagMetric f a = none) →
      tagLoop f ts = none := by
  intro ts
  induction ts with
  | nil => intro _; rfl
  | cons a as ih =>
    intro h
    rw [tagLoop_skip_none f a as (h a (List.mem_cons_self a as))]
    exact ih (fun b hb => h b (List.mem_cons_of_mem a hb))

/-- The head of the stable descending sort is the first listed element
whose key is maximal. -/
theorem sortDesc_head : ∀ (x : RawFact) (xs : List RawFact),
    (sortDesc (x :: xs)).head? = some (firstMaxFact x xs) := by
  intro x xs
  induction xs generalizing x with
  | nil => rfl
  | cons y ys ih =>
    show (insertDesc x (sortDesc (y :: ys))).head? = _
    cases hs : sortDesc (y :: ys) with
    | nil =>
      have hcontra := ih y
      rw [hs] at hcontra
      cases hcontra
    | cons mfirst rest =>
      have hm : mfirst = firstMaxFact y ys := by
        have hh := ih y
        rw [hs] at hh
        simpa using hh
      show (if strLe (factKey mfirst) (factKey x) = true then x :: mfirst :: rest
            else mfirst :: insertDesc x rest).head? = some (firstMaxFact x (y :: ys))
      cases hlt : strLt (factKey x) (factKey mfirst) with
      | true =>
        have hle : strLe (factKey mfirst) (factKey x) = false := by
          unfold strLe
          rw [hlt]
          rfl
        rw [hle]
        simp only [Bool.false_eq_true, if_false, List.head?]
        simp only [firstMaxFact]
        rw [← hm, hlt]
        simp
      | false =>
        have hle : strLe (factKey mfirst) (factKey x) = true := by
          unfold strLe
          rw [hlt]
          rfl
        rw [hle]
        simp only [if_true, List.head?]
        simp only [firstMaxFact]
        rw [← hm, hlt]
        simp

/-- The element `firstMaxFact x xs` splits `x :: xs` into a strictly-smaller-key
prefix, itself, and a suffix, and dominates every element's key. -/
theorem firstMaxFact_decomp : ∀ (x : RawFact) (xs : List RawFact),
    ∃ pre suf, x :: xs = pre ++ firstMaxFact x xs :: suf ∧
      (∀ y ∈ pre, strLt (factKey y) (factKey (firstMaxFact x xs)) = true) ∧
      (∀ y ∈ x :: xs, strLe (factKey y) (factKey (firstMaxFact x xs)) = true) := by
  intro x xs
  induction xs generalizing x with
  | nil =>
    refine ⟨[], [], rfl, by simp, ?_⟩
    intro y hy
    rw [List.mem_singleton] at hy
    subst hy
    exact strLe_refl _
  | cons y ys ih =>
    obtain ⟨pre, suf, hdecomp, hpre, hall⟩ := ih y
    cases hlt : strLt (factKey x) (factKey (firstMaxFact y ys)) with
    | true =>
      have hfm : firstMaxFact x (y :: ys) = firstMaxFact y ys := by
        simp only [firstMaxFact]
        rw [hlt]
        simp
      refine ⟨x :: pre, suf, ?_, ?_, ?_⟩
      · rw [hfm, List.cons_append, ← hdecomp]
      · intro z hz
        rw [hfm]
        rcases List.mem_cons.mp hz with hzx | hzp
        · rw [hzx]
          exact hlt
        · exact hpre z hzp
      · intro z hz
        rw [hfm]
        rcases List.mem_cons.mp hz with hzx | hzm
        · rw [hzx]
          exact strLe_of_lt hlt
        · exact hall z hzm
    | false =>
      have hfm : firstMaxFact x (y :: ys) = x := by
        simp only [firstMaxFact]
        rw [hlt]
        simp
      refine ⟨[], y :: ys, by rw [hfm]; rfl, ?_, ?_⟩
      · intro z hz
        cases hz
      · intro z hz
        rw [hfm]
        rcases List.mem_cons.mp hz with hzx | hzm
        · rw [hzx]
          exact strLe_refl _
        · exact strLe_trans_of_not_lt (hall z hzm) hlt

/-- C4: the extractor walks the candidate tags in the caller's order and
returns the observation of the first tag that yields a valid one, never
consulting lower-priority tags once a match exists; with no valid
observation under any tag it returns Absent. -/
theorem c4_tag_fallback_order :
    (∀ (f : CompanyFacts) (ts1 : List String) (t : String) (ts2 : List String)
        (m : SecMetric),
      (∀ a ∈ ts1, tagMetric f a = none) → tagMetric f t = some m →
      secGetLatestMetric (some f) (ts1 ++ t :: ts2) = some m) ∧
    (∀ (f : CompanyFacts) (ts : List String),
      (∀ a ∈ ts, tagMetric f a = none) →
      secGetLatestMetric (some f) ts = none) :=
  ⟨fun f ts1 t ts2 m h1 h2 => tagLoop_first_match f ts1 t ts2 m h1 h2,
   fun f ts h => tagLoop_all_none f ts h⟩

/-- C4 witness: with tag `A` absent and both `B` and `C` present, the
extractor returns `B`'s observation. -/
theorem c4_witness :
    secGetLatestMetric (some factsBC) ["A", "B", "C"] = some metricB :=
  c4_tag_fallback_order.1 factsBC ["A"] "B" ["C"] metricB (by decide) (by decide)

/-- C5 counterexample: two valid observations share the latest
`period_end`; the provider lists value 1 first and value 2 last, and the
extractor returns value 1 — the first listed, not the last. -/
theorem c5_counterexample :
    (secGetLatestMetric (some factsTie) ["T"]).map (fun m => m.value) = some 1 ∧
    (((lookupTag factsTie.usGaap "T").usd.filter isValidFact).getLast?).map
        (fun f => f.val) = some (some 2) ∧
    (1 : ℚ) ≠ 2 := by
  decide

/-- C5 amended: the extractor selects a valid observation with the
lexicographically maximal `period_end`; among several sharing that maximal
date it deterministically selects the one listed first in the provider's
native ordering (Python's `sorted` is stable with `reverse=True`). -/
theorem c5_amended_latest_then_first_listed :
    ∀ (f : CompanyFacts) (t : String) (m : SecMetric),
      tagMetric f t = some m →
      ∃ x pre suf,
        (lookupTag f.usGaap t).usd.filter isValidFact = pre ++ x :: suf ∧
        m = mkSecMetric t x ∧
        (∀ y ∈ pre, strLt (factKey y) (factKey x) = true) ∧
        (∀ y ∈ (lookupTag f.usGaap t).usd.filter isValidFact,
          strLe (factKey y) (factKey x) = true) := by
  intro f t m hm
  unfold tagMetric at hm
  split at hm
  · cases hm
  · split at hm
    · cases hm
    · rename_i hne
      cases hv : (lookupTag f.usGaap t).usd.filter isValidFact with
      | nil =>
        rw [hv] at hne
        exact absurd rfl hne
      | cons v vs =>
        rw [hv] at hm
        rw [sortDesc_head v vs] at hm
        obtain ⟨pre, suf, hdecomp, hpre, hall⟩ := firstMaxFact_decomp v vs
        refine ⟨firstMaxFact v vs, pre, suf, hdecomp, ?_, hpre, ?_⟩
        · exact (Option.some.inj hm).symm
        · intro y hy
          exact hall y hy

/-- C5 witness: on the tied fixture the selected observation is the first
listed of the two maximal-dated ones. -/
theorem c5_witness :
    ∃ x pre suf,
      (lookupTag factsTie.usGaap "T").usd.filter isValidFact = pre ++ x :: suf ∧
      metricTie = mkSecMetric "T" x ∧
      (∀ y ∈ pre, strLt (factKey y) (factKey x) = true) ∧
      (∀ y ∈ (lookupTag factsTie.usGaap "T").usd.filter isValidFact,
        strLe (factKey y) (factKey x) = true) :=
  c5_amended_latest_then_first_listed factsTie "T" metricTie (by decide)

/-- C6: the amount parser accepts thousands separators
(`"1,234,500" ↦ 1234500`) and maps the placeholders `"—"`/`"NaN"` to
Absent — never to 0 — so a row whose only amount is such a placeholder
yields no observation from the DART metric lookup. -/
theorem c6_numeric_tolerance :
    parseAmount (some (CellVal.str "1,234,500")) = some (PyFloat.finite 1234500) ∧
    parseAmount (some (CellVal.str "—")) = none ∧
    parseAmount (some (CellVal.str "NaN")) = none ∧
    parseAmount (some (CellVal.str "—")) ≠ some (PyFloat.finite 0) ∧
    parseAmount (some (CellVal.str "NaN")) ≠ some (PyFloat.finite 0) ∧
    dartGetLatestMetric dartEnvPlaceholder ["매출액"] none none none =
      Except.ok none := by
  decide

/-- C7 counterexample: with inferred period `annual` the candidate list is
deduplicated, so it is not `[annual, half, annual, q3, q1]`. -/
theorem c7_counterexample :
    buildPeriodCandidates none (some "annual") ≠
      ["annual", "half", "annual", "q3", "q1"] := by
  decide

/-- C7 amended: with inferred context (2023, annual) the year candidates
are `[2023, 2022]` and the period candidates are `[annual, half, q3, q1]`
(the inferred period first, then the fallback order with the duplicate
removed); an explicit year, or an explicit non-empty period, overrides
inference outright. -/
theorem c7_amended_candidate_orders :
    (∀ todayYear : Int,
      buildYearCandidates todayYear none (some 2023) = [2023, 2022]) ∧
    buildPeriodCandidates none (some "annual") = ["annual", "half", "q3", "q1"] ∧
    (∀ (todayYear y : Int) (inferred : Option Int),
      buildYearCandidates todayYear (some y) inferred = [y]) ∧
    (∀ (p : String) (inferred : Option String), p ≠ "" →
      buildPeriodCandidates (some p) inferred = [p]) := by
  refine ⟨?_, by decide, ?_, ?_⟩
  · intro todayYear
    rfl
  · intro todayYear y inferred
    rfl
  · intro p inferred hp
    show (if p = "" then buildPeriodFallback inferred else [p]) = [p]
    rw [if_neg hp]

/-- C7 witness: an explicit period is the single candidate even when an
annual period was inferred. -/
theorem c7_witness : buildPeriodCandidates (some "q3") (some "annual") = ["q3"] :=
  c7_amended_candidate_orders.2.2.2 "q3" (some "annual") (by decide)

/-- C8 counterexample: on a transport failure `get_recent_filings` does
not fail — it returns the empty list, indistinguishable from a filer with
no matching filings. -/
theorem c8_counterexample :
    secGetRecentFilings (Except.error ⟨"connection reset"⟩) TARGET_FORMS = [] ∧
    secGetRecentFilings (Except.ok ⟨some ⟨[], [], []⟩⟩) TARGET_FORMS = [] ∧
    secGetRecentFilings (Except.error ⟨"connection reset"⟩) TARGET_FORMS =
      secGetRecentFilings (Except.ok ⟨some ⟨[], [], []⟩⟩) TARGET_FORMS := by
  decide

/-- C8 amended: a network/HTTP failure is swallowed (`get_submissions`
returns `None`) and surfaces as the same empty sequence that a filer with
no matching filings produces; no transport error propagates from
`get_recent_filings`. -/
theorem c8_amended_empty_on_failure :
    (∀ (e : TransportError) (forms : List String),
      secGetRecentFilings (Except.error e) forms = []) ∧
    (∀ (subs : Submissions) (forms : List String), subs.recent = none →
      secGetRecentFilings (Except.ok subs) forms = []) ∧
    (∀ (rec : RecentFilings) (forms : List String),
      (∀ fm ∈ rec.form, fm ∉ forms) →
      secGetRecentFilings (Except.ok ⟨some rec⟩) forms = []) := by
  refine ⟨fun e forms => rfl, ?_, ?_⟩
  · intro subs forms h
    simp [secGetRecentFilings, getSubmissions, h]
  · intro rec forms h
    show (zipRecent rec).filterMap _ = []
    rw [List.filterMap_eq_nil_iff]
    intro fad hfad
    have hform : fad.1.1 ∈ rec.form := by
      have h1 := List.of_mem_zip hfad
      have h2 := List.of_mem_zip h1.1
      exact h2.1
    rw [if_neg (h fad.1.1 hform)]

/-- C8 witness: a filer whose recent filings match none of the target
forms yields the empty list. -/
theorem c8_witness :
    secGetRecentFilings (Except.ok ⟨some ⟨["8-K"], ["A1"], ["2024-01-02"]⟩⟩)
      TARGET_FORMS = [] :=
  c8_amended_empty_on_failure.2.2 ⟨["8-K"], ["A1"], ["2024-01-02"]⟩
    TARGET_FORMS (by decide)

/-- C9: the loop body never decides to terminate — every cycle outcome,
including a raised failure, leads to a sleep of the poll interval and the
next cycle, so the loop completes every scheduled cycle regardless of the
stream of failures. -/
theorem c9_loop_survives_failures :
    (∀ (interval : Nat) (c : CycleResult), loopBody interval c = (false, interval)) ∧
    (∀ (interval fuel : Nat) (cycles : Nat → CycleResult),
      runLoop interval fuel cycles = fuel) := by
  constructor
  · intro interval c
    cases c <;> rfl
  · intro interval fuel
    induction fuel with
    | zero => intro cycles; rfl
    | succ n ih =>
      intro cycles
      cases hc : cycles 0 <;> simp [runLoop, loopBody, hc, ih]

/-- C10: both DART metric entry points reject an empty candidate
account-name list with `OpenDartError` before any work, while the SEC
extractor returns Absent for an empty tag list. -/
theorem c10_empty_account_names_rejected :
    (∀ (env : DartEnv) (year : Option Int) (period corp : Option String),
      dartGetLatestMetric env [] year period corp =
        Except.error ⟨"account_names must contain at least one value"⟩) ∧
    (∀ (env : DartEnv) (year : Int) (period : String) (corp : Option String)
        (consolidated : Bool),
      getFinancialMetric env [] year period corp consolidated =
        Except.error ⟨"account_names must contain at least one entry"⟩) ∧
    (∀ facts : Option CompanyFacts, secGetLatestMetric facts [] = none) := by
  refine ⟨fun env y p c => rfl, fun env y p c cons => rfl, ?_⟩
  intro facts
  cases facts with
  | none => rfl
  | some f => rfl
